import Mathlib

/-! Shallow embedding of src/extended_variant.hpp: the class stdex::variant
and the helpers in stdex::detail that it uses.  The C++ types of a variant
type list are represented by abstract identifiers of a type with decidable
equality; the runtime values held in the raw storage slot are represented by
an abstract value type.  The discriminator is a machine integer of a width
chosen from the type count; it is represented by a natural number together
with an explicit reduction modulo 2 ^ width at every arithmetic step the
C++ performs on the discriminator type. -/

namespace Stdex

/-- Discriminator bit width selected by stdex::detail::discriminator, lines
82 to 95 of extended_variant.hpp: uint8 when the type count is at most 255,
uint16 when at most 65535, uint32 when at most 4294967295, otherwise
size_t, which is 64 bits wide on the 64-bit hosts this header targets. -/
def discBits (n : Nat) : Nat :=
  if n ≤ 255 then 8
  else if n ≤ 65535 then 16
  else if n ≤ 4294967295 then 32
  else 64

/-- Size in bytes the selected discriminator type occupies. -/
def discBytes (n : Nat) : Nat := discBits n / 8

/-- Formalisation of the spec sentence that the discriminator bit width is
the smallest unsigned integer width able to represent all valid indices,
over the 8, 16, 32 and 64 bit tiers: the largest valid index into a list
of n types is n minus one. -/
def spec_smallest_index_bits (n : Nat) : Nat :=
  if n - 1 ≤ 255 then 8
  else if n - 1 ≤ 65535 then 16
  else if n - 1 ≤ 4294967295 then 32
  else 64

/-- Accumulator loop of stdex::variant::index_of, lines 192 to 204: r is a
value of the discriminator type of width w, incremented by one for every
type of the pack that is not T; the short-circuiting fold over the
logical-or stops at the first matching type. -/
def indexOfAux {τ : Type} [DecidableEq τ] (w : Nat) (T : τ) : List τ → Nat → Nat
  | [], r => r
  | t :: rest, r => if T = t then r else indexOfAux w T rest ((r + 1) % 2 ^ w)

/-- index_of of stdex::variant over the type list Ts: the scan starts at
r equal to zero and runs on the discriminator type of that variant, whose
width is discBits of the list length. -/
def index_of {τ : Type} [DecidableEq τ] (Ts : List τ) (T : τ) : Nat :=
  indexOfAux (discBits Ts.length) T Ts 0

/-- State of one stdex::variant object, lines 157 to 162: the raw storage
slot, abstracted to the value it currently holds, and the discriminator. -/
structure Variant (τ : Type) (V : Type) where
  storage_ : V
  discriminator_ : Nat
  deriving DecidableEq

/-- Method index of stdex::variant, lines 183 to 187: returns a copy of the
discriminator. -/
def Variant.index {τ V : Type} (v : Variant τ V) : Nat :=
  v.discriminator_

/-- Method holds_alternative of stdex::variant, lines 206 to 212: true iff
the discriminator equals index_of of the queried type. -/
def holds_alternative {τ : Type} [DecidableEq τ] {V : Type} (Ts : List τ)
    (v : Variant τ V) (T : τ) : Bool :=
  decide (v.discriminator_ = index_of Ts T)

/-- Method holds_value of stdex::variant, lines 214 to 220: the slot is read
as T only after the discriminator comparison succeeds, by the
short-circuiting logical-and; eqV models the equality operator of T. -/
def holds_value {τ : Type} [DecidableEq τ] {V : Type} (eqV : V → V → Bool)
    (Ts : List τ) (v : Variant τ V) (T : τ) (other : V) : Bool :=
  decide (v.discriminator_ = index_of Ts T) && eqV v.storage_ other

/-- Method get of stdex::variant, lines 222 to 228: an optional holding a
copy of the slot value when the discriminator matches, else an empty
optional.  The body is a total conditional, so the embedding is a total
function into Option: no exception and no abort on any state. -/
def get {τ : Type} [DecidableEq τ] {V : Type} (Ts : List τ)
    (v : Variant τ V) (T : τ) : Option V :=
  if holds_alternative Ts v T then some v.storage_ else none

/-- Method get_or_default of stdex::variant, lines 230 to 239; defOf T
models the default-constructed value of T. -/
def get_or_default {τ : Type} [DecidableEq τ] {V : Type} (defOf : τ → V)
    (Ts : List τ) (v : Variant τ V) (T : τ) : V :=
  if holds_alternative Ts v T then v.storage_ else defOf T

/-- Method get_or_custom_value of stdex::variant, lines 241 to 249. -/
def get_or_custom_value {τ : Type} [DecidableEq τ] {V : Type} (Ts : List τ)
    (v : Variant τ V) (T : τ) (instead : V) : V :=
  if holds_alternative Ts v T then v.storage_ else instead

/-- Method get_or_invoke of stdex::variant, lines 251 to 261, for the empty
argument pack; with a non-empty pack the body and its static assertion
call std::forward without its argument and the instantiation is
ill-formed, so the empty pack gives the only instantiations that compile.
The possibly effectful functor is modelled in state-passing style as
F from a functor state to a pair of the new state and the produced value;
the match branch returns the slot value and leaves the functor state
untouched, the mismatch branch applies F exactly once. -/
def get_or_invoke {τ : Type} [DecidableEq τ] {V σ : Type} (Ts : List τ)
    (v : Variant τ V) (T : τ) (F : σ → σ × V) (s : σ) : σ × V :=
  if holds_alternative Ts v T then (s, v.storage_) else F s

/-- Default constructor of stdex::variant, lines 310 to 318: zero-fills the
storage, placement-constructs the first listed type into the slot unless
that type is a scalar, and sets the discriminator to zero.  zeroOf t is
the value of t whose object representation is all zero bytes and defOf t
is the default-constructed value of t. -/
def variant_default_ctor {τ V : Type} (isScalar : τ → Bool)
    (zeroOf defOf : τ → V) (first : τ) : Variant τ V :=
  ⟨if isScalar first then zeroOf first else defOf first, 0⟩

/-- Reimplementation of the default constructor written from the spec
words: always explicitly default-construct the first type into the slot,
with no scalar shortcut. -/
def variant_always_construct {τ V : Type} (defOf : τ → V) (first : τ) :
    Variant τ V :=
  ⟨defOf first, 0⟩

/-- dynamic_construct of stdex::detail::recursive_invoker, lines 266 to
307, reported as the type whose placement-constructor is invoked on the
slot; none means the recursion fell through to the empty-list
specialization, a no-op.  At every level the code compares idx, passed
down unchanged, with index_of of the head of the remaining suffix computed
over that same suffix. -/
def dynamic_construct {τ : Type} [DecidableEq τ] : List τ → Nat → Option τ
  | [], _ => none
  | T :: Ty, idx =>
    if idx = index_of (T :: Ty) T then some T else dynamic_construct Ty idx

/-- dynamic_destruct of stdex::detail::recursive_invoker, lines 287 to 297
and 306, reported as the type whose destructor is invoked on the slot. -/
def dynamic_destruct {τ : Type} [DecidableEq τ] : List τ → Nat → Option τ
  | [], _ => none
  | T :: Ty, idx =>
    if idx = index_of (T :: Ty) T then some T else dynamic_destruct Ty idx

/-- Destructor of stdex::variant, lines 320 to 324: dispatches
dynamic_destruct on the current discriminator. -/
def variant_dtor {τ : Type} [DecidableEq τ] {V : Type} (Ts : List τ)
    (v : Variant τ V) : Option τ :=
  dynamic_destruct Ts v.discriminator_

/-- Modelled from the spec: the member as_std does not appear in
src/extended_variant.hpp, only the alias detail::std_variant names the
standard type there.  The spec describes as_std as producing an equivalent
instance of the native tagged-union type of the host, holding the same
alternative and value; a standard variant instance over the same type list
is modelled as the pair of its active index and its value. -/
def as_std {τ V : Type} (v : Variant τ V) : Nat × V :=
  (v.discriminator_, v.storage_)

/-- Const query surface of stdex::variant, lines 183 to 261: one
constructor per method. -/
inductive QueryOp (τ V : Type) : Type where
  | qIndex : QueryOp τ V
  | qHolds : τ → QueryOp τ V
  | qHoldsValue : τ → V → QueryOp τ V
  | qGet : τ → QueryOp τ V
  | qGetOrDefault : τ → QueryOp τ V
  | qGetOrCustom : τ → V → QueryOp τ V
  | qGetOrInvoke : τ → (Nat → Nat × V) → Nat → QueryOp τ V

/-- Result of one const query. -/
inductive QueryOut (V : Type) : Type where
  | rIdx : Nat → QueryOut V
  | rBool : Bool → QueryOut V
  | rOpt : Option V → QueryOut V
  | rVal : V → QueryOut V
  | rPair : Nat × V → QueryOut V

/-- Running one const query against a variant object.  Every method of the
query surface is const, the class has no mutable members and each body
only reads the two fields through the const overload of access_as, lines
170 to 174, so the object after the call is the object before the call;
each result is built from copies of the fields, never from a reference
into the slot. -/
def runQuery {τ : Type} [DecidableEq τ] {V : Type} (eqV : V → V → Bool)
    (defOf : τ → V) (Ts : List τ) (v : Variant τ V) :
    QueryOp τ V → Variant τ V × QueryOut V
  | QueryOp.qIndex => (v, QueryOut.rIdx v.index)
  | QueryOp.qHolds T => (v, QueryOut.rBool (holds_alternative Ts v T))
  | QueryOp.qHoldsValue T other =>
    (v, QueryOut.rBool (holds_value eqV Ts v T other))
  | QueryOp.qGet T => (v, QueryOut.rOpt (get Ts v T))
  | QueryOp.qGetOrDefault T => (v, QueryOut.rVal (get_or_default defOf Ts v T))
  | QueryOp.qGetOrCustom T instead =>
    (v, QueryOut.rVal (get_or_custom_value Ts v T instead))
  | QueryOp.qGetOrInvoke T F s => (v, QueryOut.rPair (get_or_invoke Ts v T F s))

/-- Concrete type list of the spec example over int, float and long, as the
identifiers 0, 1 and 2; example values are rationals so that the float
literal 2.5 is represented exactly. -/
def cList : List Nat := [0, 1, 2]

/-- All three example types are scalar types. -/
def cIsScalar : Nat → Bool := fun _ => true

/-- Zero-initialized value and default-constructed value of each example
type: both are zero for int, float and long. -/
def cZero : Nat → ℚ := fun _ => 0

/-- The example fallback lambda returning 2.5, instrumented with an
invocation counter as its functor state. -/
def cLambda : Nat → Nat × ℚ := fun s => (s + 1, 5 / 2)

/-- A freshly default-constructed container over the example list: first
type int, identifier 0. -/
def cd : Variant Nat ℚ := variant_default_ctor cIsScalar cZero cZero 0

theorem le_discBits_bound (n : Nat) (h : n < 2 ^ 64 - 1) :
    n ≤ 2 ^ discBits n - 1 := by
  simp only [discBits]
  split_ifs with h1 h2 h3 <;> norm_num <;> omega

theorem indexOfAux_first_match {τ : Type} [DecidableEq τ] (w : Nat) :
    ∀ (Ts : List τ), Ts.Nodup → ∀ (i : Nat) (hi : i < Ts.length) (r : Nat),
      r + i < 2 ^ w → indexOfAux w (Ts.get ⟨i, hi⟩) Ts r = r + i := by
  intro Ts
  induction Ts with
  | nil =>
    intro _ i hi
    exact absurd hi (by simp)
  | cons t rest ih =>
    intro hnd i hi r hlt
    obtain ⟨hto, hrest⟩ := List.nodup_cons.mp hnd
    cases i with
    | zero =>
      simp [indexOfAux]
    | succ j =>
      have hj : j < rest.length := Nat.lt_of_succ_lt_succ hi
      have hget : (t :: rest).get ⟨j + 1, hi⟩ = rest.get ⟨j, hj⟩ := rfl
      have hne : rest.get ⟨j, hj⟩ ≠ t := by
        intro he
        exact hto (he ▸ List.get_mem rest j hj)
      have hmod : (r + 1) % 2 ^ w = r + 1 :=
        Nat.mod_eq_of_lt (by omega)
      have hrec := ih hrest j hj (r + 1) (by omega)
      simp only [hget, indexOfAux, if_neg hne, hmod, hrec]
      omega

theorem indexOfAux_absent {τ : Type} [DecidableEq τ] (w : Nat) (T : τ) :
    ∀ (Ts : List τ) (r : Nat), T ∉ Ts → r + Ts.length < 2 ^ w →
      indexOfAux w T Ts r = r + Ts.length := by
  intro Ts
  induction Ts with
  | nil => intro r _ _; simp [indexOfAux]
  | cons t rest ih =>
    intro r hmem hlt
    have hne : T ≠ t := fun he => hmem (he ▸ List.mem_cons_self t rest)
    have hmod : (r + 1) % 2 ^ w = r + 1 :=
      Nat.mod_eq_of_lt (by simp at hlt ⊢; omega)
    have := ih (r + 1) (fun hm => hmem (List.mem_cons_of_mem t hm))
      (by simp at hlt ⊢; omega)
    simp only [indexOfAux, if_neg hne, hmod, this, List.length_cons]
    omega

/-- C1: evaluation of the construct and destruct dispatcher at the failing
input: over the two-type list 0, 1 with discriminator value 1 the claim
asks for the constructor respectively destructor of the type at position
1; the code compares the index at every recursion level against index_of
of the suffix head computed over that suffix, which is always 0, and
passes the index down unchanged, so both recursions fall through to the
empty-list no-op and no constructor or destructor of any type is invoked;
with discriminator 0 the head type is handled, so the container
destructor only ever destructs the first listed type. -/
theorem dynamic_dispatch_noop_above_zero :
    dynamic_destruct ([0, 1] : List Nat) 1 = none ∧
    dynamic_construct ([0, 1] : List Nat) 1 = none ∧
    variant_dtor ([0, 1] : List Nat) (⟨(0 : Int), 1⟩ : Variant Nat Int) = none ∧
    dynamic_destruct ([0, 1] : List Nat) 0 = some 0 := by
  decide

/-- C2: over every valid type list, all types distinct, index_of of the
type at position i returns i: the scan short-circuits at the first match
having accumulated one increment per earlier non-matching type, and the
accumulator never wraps because the discriminator width admits the type
count, itself below the size_t bound asserted at line 126. -/
theorem index_of_position {τ : Type} [DecidableEq τ] (Ts : List τ)
    (i : Nat) (hi : i < Ts.length) (hnd : Ts.Nodup)
    (hlen : Ts.length < 2 ^ 64 - 1) :
    index_of Ts (Ts.get ⟨i, hi⟩) = i := by
  have hb := le_discBits_bound Ts.length hlen
  have hlt : 0 + i < 2 ^ discBits Ts.length := by omega
  simpa [index_of] using
    indexOfAux_first_match (discBits Ts.length) Ts hnd i hi 0 hlt

/-- C2 witness: position 1 of a concrete three-type list. -/
theorem index_of_position_witness :
    index_of ([10, 20, 30] : List Nat) 20 = 1 :=
  index_of_position [10, 20, 30] 1 (by decide) (by decide) (by norm_num)

/-- C3: get returns a present optional wrapping a copy of the stored value
iff the discriminator equals index_of of the queried type, and the empty
optional otherwise; the embedding of the body is a total function into
Option, so it raises no exception and aborts on no state. -/
theorem get_present_iff {τ : Type} [DecidableEq τ] {V : Type} (Ts : List τ)
    (v : Variant τ V) (T : τ) :
    (get Ts v T = some v.storage_ ↔ v.discriminator_ = index_of Ts T) ∧
    (v.discriminator_ ≠ index_of Ts T → get Ts v T = none) := by
  by_cases h : v.discriminator_ = index_of Ts T <;>
    simp [get, holds_alternative, h]

/-- C3 witness: a mismatching query on a concrete state returns the empty
optional. -/
theorem get_present_iff_witness :
    get ([0, 1] : List Nat) (⟨(5 : Int), 1⟩ : Variant Nat Int) 0 = none :=
  (get_present_iff [0, 1] ⟨5, 1⟩ 0).2 (by decide)

/-- C4 counterexample: with the two-type list 0, 1 the absent type 2 is
accepted rather than rejected: index_of instantiates to the defined value
2, the list length, and holds_alternative with the absent type
instantiates and returns false; no static assertion in lines 192 to 212
constrains the queried type to be a member of the list. -/
theorem index_of_absent_defined :
    index_of ([0, 1] : List Nat) 2 = 2 ∧
    holds_alternative [0, 1] (⟨(0 : Int), 0⟩ : Variant Nat Int) 2 = false := by
  decide

/-- C4 amended: calling index_of with a type absent from the list is not a
compile-time failure: the scan falls through all types and returns the
list length, one past the last valid index, and holds_alternative with an
absent type likewise compiles and returns false for every discriminator
holding a valid index. -/
theorem index_of_absent {τ : Type} [DecidableEq τ] {V : Type} (Ts : List τ)
    (T : τ) (v : Variant τ V) (hT : T ∉ Ts) (hlen : Ts.length < 2 ^ 64 - 1) :
    index_of Ts T = Ts.length ∧
    (v.discriminator_ < Ts.length → holds_alternative Ts v T = false) := by
  have hb := le_discBits_bound Ts.length hlen
  have hp : 0 < 2 ^ discBits Ts.length := Nat.pow_pos (by norm_num)
  have h1 : index_of Ts T = Ts.length := by
    have := indexOfAux_absent (discBits Ts.length) T Ts 0 hT (by omega)
    simpa [index_of] using this
  refine ⟨h1, fun hlt => ?_⟩
  simp only [holds_alternative, h1, decide_eq_false_iff_not]
  omega

/-- C4 amended witness: the absent type 7 over the list 3, 4 yields the
list length. -/
theorem index_of_absent_witness :
    index_of ([3, 4] : List Nat) 7 = 2 :=
  (index_of_absent [3, 4] 7 (⟨(0 : Int), 0⟩ : Variant Nat Int)
    (by decide) (by norm_num)).1

/-- C5: behaviour of get_or_invoke in the instantiations that compile, the
empty argument pack: the stored value is returned and the functor state
left untouched when the active type matches, and otherwise the functor is
applied exactly once; laziness and the at-most-once bound hold as
claimed, while the claimed forwarding of a non-empty argument pack is
refuted directly by the source, whose calls to std::forward in line 259
and line 260 lack their argument. -/
theorem get_or_invoke_lazy {τ : Type} [DecidableEq τ] {V σ : Type}
    (Ts : List τ) (v : Variant τ V) (T : τ) (F : σ → σ × V) (s : σ) :
    (v.discriminator_ = index_of Ts T →
      get_or_invoke Ts v T F s = (s, v.storage_)) ∧
    (v.discriminator_ ≠ index_of Ts T → get_or_invoke Ts v T F s = F s) := by
  by_cases h : v.discriminator_ = index_of Ts T <;>
    simp [get_or_invoke, holds_alternative, h]

/-- C5 witness: on a matching query the functor is not applied and its
counter state stays 0. -/
theorem get_or_invoke_lazy_witness :
    get_or_invoke ([0, 1] : List Nat) (⟨(7 : Int), 0⟩ : Variant Nat Int) 0
      (fun s => (s + 1, 9)) 0 = (0, 7) :=
  (get_or_invoke_lazy [0, 1] ⟨7, 0⟩ 0 (fun s => (s + 1, 9)) 0).1 (by decide)

/-- C6 counterexample: at the boundary count 256 the code selects the
16-bit, two-byte tier although every valid index, 0 through 255, fits the
8-bit tier, so the discriminator is not the smallest unsigned integer
width able to represent all valid indices. -/
theorem discBits_boundary_not_minimal :
    discBits 256 = 16 ∧ spec_smallest_index_bits 256 = 8 ∧
    discBytes 256 = 2 := by
  decide

/-- C6 amended: the byte tier table holds exactly as stated, and the
selected width is the smallest of the 8, 16 and 32 bit tiers whose
maximum value accommodates the type count n itself, falling back to the
64-bit machine word otherwise; at the boundary counts 256, 65536 and
2 ^ 32 this is one tier wider than the smallest width representing just
the indices 0 to n - 1. -/
theorem discBits_tier_minimality (n : Nat) :
    discBytes n =
      (if n ≤ 255 then 1 else if n ≤ 65535 then 2
       else if n ≤ 4294967295 then 4 else 8) ∧
    (n ≤ 4294967295 → n ≤ 2 ^ discBits n - 1) ∧
    (∀ w, (w = 8 ∨ w = 16 ∨ w = 32) → n ≤ 2 ^ w - 1 → discBits n ≤ w) := by
  refine ⟨?_, ?_, ?_⟩
  · simp only [discBytes, discBits]
    split_ifs <;> norm_num
  · intro hn
    simp only [discBits]
    split_ifs <;> norm_num <;> omega
  · intro w hw hn
    simp only [discBits]
    rcases hw with rfl | rfl | rfl <;> norm_num at hn <;>
      split_ifs <;> omega

/-- C6 amended witness: at count 300 the 16-bit tier accommodates the
count, so the selected width is at most 16. -/
theorem discBits_tier_minimality_witness : discBits 300 ≤ 16 :=
  (discBits_tier_minimality 300).2.2 16 (Or.inr (Or.inl rfl)) (by norm_num)

/-- C7: default construction of a variant whose first type is default
constructible yields discriminator 0 and containment of the first listed
type; and on the concrete example list int, float, long, identifiers 0,
1, 2 with rational values, the freshly default-constructed container
satisfies every stated query equation, and the fallback lambda is not
invoked when the active type matches the query type: its invocation
counter stays 0. -/
theorem default_ctor_spec (Ts : List Nat) (isSc : Nat → Bool)
    (zOf dOf : Nat → ℚ) (h : Ts ≠ []) :
    ((variant_default_ctor isSc zOf dOf (Ts.head h)).discriminator_ = 0 ∧
     holds_alternative Ts (variant_default_ctor isSc zOf dOf (Ts.head h))
       (Ts.head h) = true) ∧
    (Variant.index cd = 0 ∧
     get cList cd 0 = some 0 ∧
     get cList cd 1 = none ∧
     get_or_default cZero cList cd 1 = 0 ∧
     get_or_custom_value cList cd 2 (-100) = -100 ∧
     get_or_invoke cList cd 1 cLambda 0 = (1, 5 / 2) ∧
     get_or_invoke cList cd 0 cLambda 0 = (0, 0)) := by
  constructor
  · constructor
    · rfl
    · cases Ts with
      | nil => exact absurd rfl h
      | cons t rest =>
        simp [holds_alternative, variant_default_ctor, index_of, indexOfAux]
  · exact ⟨rfl, rfl, rfl, rfl, rfl, rfl, rfl⟩

/-- C7 witness: instantiated at the example list, whose head is the int
identifier. -/
theorem default_ctor_spec_witness :
    holds_alternative cList
      (variant_default_ctor cIsScalar cZero cZero (cList.head (by decide)))
      (cList.head (by decide)) = true :=
  (default_ctor_spec cList cIsScalar cZero cZero (by decide)).1.2

/-- C8: a container holding alternative T with value val converts by
as_std to a standard-variant instance over the same type list whose
active alternative index is that of T and whose stored value equals
val. -/
theorem as_std_round_trip {τ : Type} [DecidableEq τ] {V : Type}
    (Ts : List τ) (v : Variant τ V) (T : τ) (val : V)
    (hd : v.discriminator_ = index_of Ts T) (hv : v.storage_ = val) :
    (as_std v).1 = index_of Ts T ∧ (as_std v).2 = val :=
  ⟨hd, hv⟩

/-- C8 witness: concrete round trip at alternative position 1. -/
theorem as_std_round_trip_witness :
    (as_std (⟨(9 : Int), 1⟩ : Variant Nat Int)).1 = index_of [0, 1] 1 ∧
    (as_std (⟨(9 : Int), 1⟩ : Variant Nat Int)).2 = 9 :=
  as_std_round_trip [0, 1] ⟨9, 1⟩ 1 9 (by decide) rfl

/-- C9: the scalar-skip path of the default constructor is observably
equivalent to the reimplementation that always explicitly
default-constructs the first type, given the fact the spec cites: for a
scalar type the all-zero bit pattern is its default-constructed value;
both produce the same state, hence discriminator 0 and the same stored
value as read by every query operation. -/
theorem scalar_skip_equiv {τ : Type} [DecidableEq τ] {V : Type}
    (isSc : τ → Bool) (zOf dOf : τ → V) (first : τ)
    (hscalar : isSc first = true → zOf first = dOf first) :
    variant_default_ctor isSc zOf dOf first =
      variant_always_construct dOf first ∧
    ∀ (Ts : List τ) (T : τ),
      get Ts (variant_default_ctor isSc zOf dOf first) T =
        get Ts (variant_always_construct dOf first) T ∧
      get_or_default dOf Ts (variant_default_ctor isSc zOf dOf first) T =
        get_or_default dOf Ts (variant_always_construct dOf first) T := by
  have hst : variant_default_ctor isSc zOf dOf first =
      variant_always_construct dOf first := by
    unfold variant_default_ctor variant_always_construct
    cases hb : isSc first with
    | true => simp [hscalar hb]
    | false => simp
  exact ⟨hst, fun Ts T => by rw [hst]; exact ⟨rfl, rfl⟩⟩

/-- C9 witness: at the concrete example scalar first type, where the
zero-filled value and the default value coincide. -/
theorem scalar_skip_equiv_witness :
    variant_default_ctor cIsScalar cZero cZero 0 =
      variant_always_construct cZero 0 :=
  (scalar_skip_equiv cIsScalar cZero cZero 0 (fun _ => rfl)).1

/-- C10: every const query leaves the container state completely
unchanged, same discriminator and same stored slot value, each result is
a function of the state alone, and a later query sees exactly the state
an earlier query saw, so any sequence of queries is order-independent. -/
theorem queries_frame {τ : Type} [DecidableEq τ] {V : Type}
    (eqV : V → V → Bool) (defOf : τ → V) (Ts : List τ) (v : Variant τ V)
    (q q2 : QueryOp τ V) :
    (runQuery eqV defOf Ts v q).1.storage_ = v.storage_ ∧
    (runQuery eqV defOf Ts v q).1.discriminator_ = v.discriminator_ ∧
    (runQuery eqV defOf Ts ((runQuery eqV defOf Ts v q).1) q2).2 =
      (runQuery eqV defOf Ts v q2).2 := by
  have h1 : (runQuery eqV defOf Ts v q).1 = v := by cases q <;> rfl
  exact ⟨by rw [h1], by rw [h1], by rw [h1]⟩

end Stdex
